import Mathlib

/-!
Verification development for the kitchen / dish repository.

Shallow embedding of the data model and the operations of the C++ sources
(`Appetizer.cpp`, `Dessert.cpp`, `MainCourse.cpp`, `Kitchen.cpp`,
`Appetizer.hpp`, `Kitchen.hpp` plus headers), with theorems settling the
specification claims about them.

Modelling conventions:
* C++ `int` is modelled by `Int`, `std::string` by `String`,
  `std::vector<T>` by `List T`.
* `double` prices are modelled by `Rat`: the claims only ever compare prices
  for equality, and decimal CSV prices embed injectively into `Rat`.
* The container of `Dish*` handles is modelled by a list of dish values; a
  heap object is identified with its value at the point of use.  For
  `releaseDishesBelowPrepTime`, whose snapshot-bound loop can read pointers
  to already-`delete`d objects, a pointer-level model tracks object
  identity and freed pointers explicitly, and any dereference of a freed
  pointer (undefined behaviour in the source) yields `none`.
-/

namespace KitchenModel

/-- `Dish::CuisineType` (from Dish.hpp, fixed by its uses in Kitchen.cpp). -/
inductive CuisineType
  | ITALIAN | MEXICAN | CHINESE | INDIAN | AMERICAN | FRENCH | OTHER
  deriving DecidableEq, Repr

/-- `Appetizer::ServingStyle` (Appetizer.hpp). -/
inductive ServingStyle
  | PLATED | FAMILY_STYLE | BUFFET
  deriving DecidableEq, Repr

/-- `MainCourse::CookingMethod` (used in Kitchen.cpp / MainCourse.cpp). -/
inductive CookingMethod
  | GRILLED | BAKED | BOILED | FRIED | STEAMED | RAW
  deriving DecidableEq, Repr

/-- `Dessert::FlavorProfile` (Dessert.hpp). -/
inductive FlavorProfile
  | SWEET | BITTER | SOUR | SALTY | UMAMI
  deriving DecidableEq, Repr

/-- `MainCourse::Category` of a side dish (used in MainCourse.cpp display
and gluten_free handling). -/
inductive SideCategory
  | GRAIN | PASTA | LEGUME | BREAD | SALAD | SOUP | STARCHES | VEGETABLE
  deriving DecidableEq, Repr

/-- `MainCourse::SideDish`: a name plus a category. -/
structure SideDish where
  name : String
  category : SideCategory
  deriving DecidableEq, Repr

/-- `Dish::DietaryRequest`: the six independent boolean flags.  The struct
lives in the missing Dish.hpp, but all six fields are read in the present
.cpp sources and listed in the spec. -/
structure DietaryRequest where
  vegetarian : Bool
  vegan : Bool
  gluten_free : Bool
  nut_free : Bool
  low_sodium : Bool
  low_sugar : Bool
  deriving DecidableEq, Repr

/-- The shared base attributes of `Dish` (Dish.hpp). -/
structure DishBase where
  name : String
  ingredients : List String
  prep_time : Int
  price : Rat
  cuisine_type : CuisineType
  deriving DecidableEq, Repr

/-- `Appetizer` (Appetizer.hpp): base dish plus serving style, spiciness
level and vegetarian flag. -/
structure Appetizer where
  base : DishBase
  serving_style : ServingStyle
  spiciness_level : Int
  vegetarian : Bool
  deriving DecidableEq, Repr

/-- `MainCourse` (MainCourse.hpp): base dish plus cooking method, protein
type, side dishes and gluten-free flag. -/
structure MainCourse where
  base : DishBase
  cooking_method : CookingMethod
  protein_type : String
  side_dishes : List SideDish
  gluten_free : Bool
  deriving DecidableEq, Repr

/-- `Dessert` (Dessert.hpp): base dish plus flavor profile, sweetness level
and contains-nuts flag. -/
structure Dessert where
  base : DishBase
  flavor_profile : FlavorProfile
  sweetness_level : Int
  contains_nuts : Bool
  deriving DecidableEq, Repr

/-- A polymorphic dish: one of the three concrete variants.

Modelled from the spec: `Dish::operator==` lives in the missing Dish.cpp;
per the spec, equality of two dishes is equality of all shared attributes
plus the variant-specific attributes when the variants match, and
cross-variant comparisons are unequal.  The derived `DecidableEq` on this
sum type is exactly that contract. -/
inductive Dish
  | appetizer (a : Appetizer)
  | maincourse (m : MainCourse)
  | dessert (d : Dessert)
  deriving DecidableEq, Repr

namespace Dish

/-- `Dish::getName()`. -/
def getName : Dish → String
  | appetizer a => a.base.name
  | maincourse m => m.base.name
  | dessert d => d.base.name

/-- `Dish::getIngredients()`. -/
def getIngredients : Dish → List String
  | appetizer a => a.base.ingredients
  | maincourse m => m.base.ingredients
  | dessert d => d.base.ingredients

/-- `Dish::getPrepTime()`. -/
def getPrepTime : Dish → Int
  | appetizer a => a.base.prep_time
  | maincourse m => m.base.prep_time
  | dessert d => d.base.prep_time

/-- `Dish::getPrice()`. -/
def getPrice : Dish → Rat
  | appetizer a => a.base.price
  | maincourse m => m.base.price
  | dessert d => d.base.price

/-- `Dish::getCuisineType()`. -/
def getCuisineType : Dish → CuisineType
  | appetizer a => a.base.cuisine_type
  | maincourse m => m.base.cuisine_type
  | dessert d => d.base.cuisine_type

end Dish

/-! ## The dietary-accommodation transforms (Appetizer.cpp, MainCourse.cpp,
Dessert.cpp) -/

/-- The non-vegetarian ingredient set of Appetizer.cpp / MainCourse.cpp. -/
def non_vegetarian : List String :=
  ["Meat", "Chicken", "Fish", "Beef", "Pork", "Lamb", "Shrimp", "Bacon"]

/-- The gluten-containing ingredient set of Appetizer.cpp. -/
def gluten_containing : List String :=
  ["Wheat", "Flour", "Bread", "Pasta", "Barley", "Rye", "Oats", "Crust"]

/-- The dairy-and-egg ingredient set of MainCourse.cpp / Dessert.cpp. -/
def dairy_and_eggs : List String :=
  ["Milk", "Eggs", "Cheese", "Butter", "Cream", "Yogurt"]

/-- The nut ingredient set of Dessert.cpp. -/
def nuts : List String :=
  ["Almonds", "Walnuts", "Pecans", "Hazelnuts", "Peanuts", "Cashews", "Pistachios"]

/-- The bounded-substitution loop shared by the vegetarian passes of
Appetizer.cpp / MainCourse.cpp and the vegan pass of Dessert.cpp: walk the
list carrying the two used-replacement flags; a forbidden ingredient emits
the first replacement, then the second, then nothing; other ingredients are
copied through. -/
def substGo (forb : List String) (r1 r2 : String) :
    List String → Bool → Bool → List String
  | [], _, _ => []
  | ing :: rest, used1, used2 =>
    if forb.contains ing then
      if !used1 then r1 :: substGo forb r1 r2 rest true used2
      else if !used2 then r2 :: substGo forb r1 r2 rest used1 true
      else substGo forb r1 r2 rest used1 used2
    else ing :: substGo forb r1 r2 rest used1 used2

/-- Bounded substitution starting with both replacement flags unset. -/
def boundedSubst (forb : List String) (r1 r2 : String) (l : List String) :
    List String :=
  substGo forb r1 r2 l false false

/-- `Appetizer::dietaryAccommodations` (Appetizer.cpp lines 139-191). -/
def Appetizer.dietaryAccommodations (a : Appetizer) (r : DietaryRequest) :
    Appetizer :=
  let a1 :=
    if r.vegetarian then
      { a with
        vegetarian := true
        base := { a.base with
          ingredients := boundedSubst non_vegetarian "Beans" "Mushrooms"
            a.base.ingredients } }
    else a
  let a2 :=
    if r.low_sodium then
      { a1 with spiciness_level := max 0 (a1.spiciness_level - 2) }
    else a1
  if r.gluten_free then
    { a2 with
      base := { a2.base with
        ingredients := a2.base.ingredients.filter
          (fun ing => !(gluten_containing.contains ing)) } }
  else a2

/-- `MainCourse::dietaryAccommodations` (MainCourse.cpp lines 191-254). -/
def MainCourse.dietaryAccommodations (m : MainCourse) (r : DietaryRequest) :
    MainCourse :=
  let m1 :=
    if r.vegetarian then
      { m with
        protein_type := "Tofu"
        base := { m.base with
          ingredients := boundedSubst non_vegetarian "Beans" "Mushrooms"
            m.base.ingredients } }
    else m
  let m2 :=
    if r.vegan then
      { m1 with
        protein_type := "Tofu"
        base := { m1.base with
          ingredients := m1.base.ingredients.filter
            (fun ing => !(dairy_and_eggs.contains ing)) } }
    else m1
  if r.gluten_free then
    { m2 with
      gluten_free := true
      side_dishes := m2.side_dishes.filter
        (fun side => !(side.category = SideCategory.GRAIN ||
                       side.category = SideCategory.PASTA ||
                       side.category = SideCategory.BREAD ||
                       side.category = SideCategory.STARCHES)) }
  else m2

/-- `Dessert::dietaryAccommodations` (Dessert.cpp lines 145-209).

The vegan pass clears `new_ingredients` and then iterates over
`(need_update ? new_ingredients : current_ingredients)`: when `need_update`
is already true (the nut-free pass ran), the loop source is the vector that
was just cleared, so the loop body never executes and the rebuilt list
stays empty.  The model mirrors that behaviour exactly. -/
def Dessert.dietaryAccommodations (d : Dessert) (r : DietaryRequest) :
    Dessert :=
  let current_ingredients := d.base.ingredients
  -- nut_free pass
  let contains_nuts := if r.nut_free then false else d.contains_nuts
  let new_ingredients :=
    if r.nut_free then
      current_ingredients.filter (fun ing => !(nuts.contains ing))
    else []
  let need_update := r.nut_free
  -- low_sugar pass
  let sweetness_level :=
    if r.low_sugar then max 0 (d.sweetness_level - 3) else d.sweetness_level
  -- vegan pass: `new_ingredients.clear()` runs before the range expression
  -- is read, so the iterated list is `[]` whenever `need_update` holds
  let new_ingredients2 :=
    if r.vegan then
      boundedSubst dairy_and_eggs "Almond Milk" "Flax Egg"
        (if need_update then [] else current_ingredients)
    else new_ingredients
  let need_update2 := need_update || r.vegan
  { d with
    contains_nuts := contains_nuts
    sweetness_level := sweetness_level
    base :=
      if need_update2 then { d.base with ingredients := new_ingredients2 }
      else d.base }

/-- Polymorphic dispatch of `dietaryAccommodations` over the variants. -/
def Dish.dietaryAccommodations : Dish → DietaryRequest → Dish
  | .appetizer a, r => .appetizer (a.dietaryAccommodations r)
  | .maincourse m, r => .maincourse (m.dietaryAccommodations r)
  | .dessert d, r => .dessert (d.dietaryAccommodations r)

/-! ## The bag / kitchen container -/

/-- The scan of `Kitchen::serveDish` (and of the spec's `ArrayBag::remove`):
index of the first element of `l` equal to `d`, if any. -/
def findFirstIndex {α : Type} [DecidableEq α] : List α → α → Option Nat
  | [], _ => none
  | x :: xs, d => if x = d then some 0 else (findFirstIndex xs d).map (· + 1)

/-- Modelled from the spec: `ArrayBag::remove`'s swap-with-last removal
(ArrayBag.hpp is not under src/): the element at index `i` is overwritten
with the last element and the length shrinks by one. -/
def swapRemoveAt {α : Type} (l : List α) (i : Nat) : List α :=
  match l.getLast? with
  | none => l
  | some x => (l.set i x).dropLast

/-- The "elaborate" test of Kitchen.cpp (`newOrder`/`serveDish`):
at least 5 ingredients and prep time at least 60. -/
def isElaborateDish (d : Dish) : Bool :=
  decide (5 ≤ d.getIngredients.length) && decide ((60 : Int) ≤ d.getPrepTime)

/-- `Kitchen` (Kitchen.hpp): an `ArrayBag<Dish*>` plus the two bookkeeping
counters.  The bag's backing storage is modelled by the list of the dishes
in slots `[0, current_size)`; `capacity` is the bag's fixed capacity
(ArrayBag.hpp is not under src/; the spec fixes `add`'s capacity test). -/
structure Kitchen where
  capacity : Nat
  items : List Dish
  total_prep_time : Int
  count_elaborate : Int
  deriving Repr, DecidableEq

/-- `Kitchen::Kitchen()`: empty bag, both counters zero. -/
def Kitchen.emptyKitchen (c : Nat) : Kitchen :=
  { capacity := c, items := [], total_prep_time := 0, count_elaborate := 0 }

/-- `Kitchen::newOrder` (Kitchen.cpp lines 165-174), with `ArrayBag::add`
modelled from the spec: fails with no mutation when the bag is full,
otherwise appends at index `current_size`.  On success the dish's prep time
is added to `total_prep_time_` and `count_elaborate_` is incremented when
the dish is elaborate. -/
def Kitchen.newOrder (k : Kitchen) (d : Dish) : Kitchen × Bool :=
  if k.items.length < k.capacity then
    ({ k with
        items := k.items ++ [d]
        total_prep_time := k.total_prep_time + d.getPrepTime
        count_elaborate :=
          k.count_elaborate + (if isElaborateDish d then 1 else 0) }, true)
  else (k, false)

/-- `Kitchen::serveDish` (Kitchen.cpp lines 189-204): scan for the first
contained dish equal (by the full equality contract) to the argument; if
found, subtract its prep time, decrement `count_elaborate_` when it was
elaborate, destroy it and remove it from the bag by the swap-with-last
mechanism.  Returns false with no mutation when the bag is empty or no
dish matches. -/
def Kitchen.serveDish (k : Kitchen) (d : Dish) : Kitchen × Bool :=
  if k.items.length = 0 then (k, false)
  else
    match findFirstIndex k.items d with
    | none => (k, false)
    | some i =>
      ({ k with
          items := swapRemoveAt k.items i
          total_prep_time := k.total_prep_time - d.getPrepTime
          count_elaborate :=
            k.count_elaborate - (if isElaborateDish d then 1 else 0) }, true)

/-- `Kitchen::dietaryAdjustment` (Kitchen.cpp lines 214-218): apply
`dietaryAccommodations(request)` to every contained dish in place. -/
def Kitchen.dietaryAdjustment (k : Kitchen) (r : DietaryRequest) : Kitchen :=
  { k with items := k.items.map (fun d => d.dietaryAccommodations r) }

/-- Round half away from zero, as `std::round` does; the C++ computes the
average in `double`, which at the magnitudes of int prep-time sums over a
small bag is exact up to this final rounding. -/
def roundHalfAway (q : Rat) : Int :=
  if 0 ≤ q then ⌊q + 1 / 2⌋ else ⌈q - 1 / 2⌉

/-- `Kitchen::calculateAvgPrepTime` (Kitchen.cpp lines 300-310): 0 when the
kitchen is empty, otherwise the sum of the contained dishes' prep times
divided by the current size, rounded by `std::round`. -/
def Kitchen.calculateAvgPrepTime (k : Kitchen) : Int :=
  if k.items.length = 0 then 0
  else
    roundHalfAway
      (((k.items.map Dish.getPrepTime).sum : Rat) / (k.items.length : Rat))

/-- `stringToServingStyle` (Kitchen.cpp lines 28-33). -/
def stringToServingStyle (str : String) : ServingStyle :=
  if str = "PLATED" then ServingStyle.PLATED
  else if str = "BUFFET" then ServingStyle.BUFFET
  else if str = "FAMILY_STYLE" then ServingStyle.FAMILY_STYLE
  else ServingStyle.PLATED

/-- `stringToCookingMethod` (Kitchen.cpp lines 46-54). -/
def stringToCookingMethod (str : String) : CookingMethod :=
  if str = "GRILLED" then CookingMethod.GRILLED
  else if str = "BAKED" then CookingMethod.BAKED
  else if str = "BOILED" then CookingMethod.BOILED
  else if str = "FRIED" then CookingMethod.FRIED
  else if str = "STEAMED" then CookingMethod.STEAMED
  else if str = "RAW" then CookingMethod.RAW
  else CookingMethod.GRILLED

/-- `stringToFlavorProfile` (Kitchen.cpp lines 63-70). -/
def stringToFlavorProfile (str : String) : FlavorProfile :=
  if str = "SWEET" then FlavorProfile.SWEET
  else if str = "BITTER" then FlavorProfile.BITTER
  else if str = "SOUR" then FlavorProfile.SOUR
  else if str = "SALTY" then FlavorProfile.SALTY
  else if str = "UMAMI" then FlavorProfile.UMAMI
  else FlavorProfile.SWEET

/-- `Kitchen::stringToCuisineType` (Kitchen.cpp lines 263-271). -/
def Kitchen.stringToCuisineType (str : String) : CuisineType :=
  if str = "ITALIAN" then CuisineType.ITALIAN
  else if str = "MEXICAN" then CuisineType.MEXICAN
  else if str = "CHINESE" then CuisineType.CHINESE
  else if str = "INDIAN" then CuisineType.INDIAN
  else if str = "AMERICAN" then CuisineType.AMERICAN
  else if str = "FRENCH" then CuisineType.FRENCH
  else CuisineType.OTHER

/-! ## `releaseDishesBelowPrepTime` at the pointer level

`Kitchen::releaseDishesBelowPrepTime` (Kitchen.cpp lines 382-392) snapshots
`num = getCurrentSize()` and then reads `items_[i]` for every `i < num`,
including slots that removals have already moved past `current_size`.  Those
slots still hold their last written *pointer*, and the object behind such a
pointer may meanwhile have been `delete`d by `serveDish`, so the model must
track object identity and freed pointers, not just values.  A pointer is a
`Nat`: an index into the immutable object store `objs` (one entry per heap
object; the kitchen's dishes at entry).  Dereferencing a freed pointer is
undefined behaviour; every model function below reports it as `none`. -/

/-- Dereference a pointer: `none` when the pointer's object has been freed
(or the pointer is invalid) — reading it is undefined behaviour. -/
def derefPtr (objs : List Dish) (freed : List Nat) (p : Nat) : Option Dish :=
  if p ∈ freed then none else objs[p]?

/-- The bag state as `releaseDishesBelowPrepTime` sees it: the backing
array of pointers, the live size, the set of freed pointers, and the two
kitchen counters. -/
structure PtrState where
  slots : List Nat
  size : Nat
  freed : List Nat
  total_prep_time : Int
  count_elaborate : Int

/-- The scan of `Kitchen::serveDish`, dereferencing each scanned live slot
to compare `*items_[i] == *dish_to_remove`: `none` = the scan dereferenced
a freed pointer; `some none` = no match; `some (some k)` = the first
value-equal match is at live index `k`. -/
def scanFirstEqual (objs : List Dish) (freed : List Nat) (dv : Dish) :
    List Nat → Option (Option Nat)
  | [] => some none
  | p :: rest =>
    match derefPtr objs freed p with
    | none => none
    | some x =>
      if x = dv then some (some 0)
      else (scanFirstEqual objs freed dv rest).map (fun r => r.map (· + 1))

/-- `Kitchen::serveDish` (Kitchen.cpp lines 189-204) at the pointer level:
dereference the argument and every scanned live slot for the equality
comparisons; on the first value-equal match, subtract that dish's stats,
`delete` the matched pointer (adding it to `freed`), then remove it from
the bag by pointer value (no dereference) via the swap-with-last mechanism.
`none` = some comparison dereferenced a freed pointer. -/
def serveDishPtr (objs : List Dish) (s : PtrState) (p : Nat) :
    Option (PtrState × Bool) :=
  if s.size = 0 then some (s, false)
  else
    match derefPtr objs s.freed p with
    | none => none
    | some dv =>
      match scanFirstEqual objs s.freed dv (s.slots.take s.size) with
      | none => none
      | some none => some (s, false)
      | some (some k) =>
        match (s.slots.take s.size)[k]? with
        | none => some (s, false)
        | some q =>
          match findFirstIndex (s.slots.take s.size) q with
          | none => some (s, false)
          | some j =>
            match (s.slots.take s.size).getLast? with
            | none => some (s, false)
            | some lastp =>
              some ({ slots := s.slots.set j lastp
                      size := s.size - 1
                      freed := q :: s.freed
                      total_prep_time := s.total_prep_time - dv.getPrepTime
                      count_elaborate := s.count_elaborate -
                        (if isElaborateDish dv then 1 else 0) }, true)

/-- One iteration of the `releaseDishesBelowPrepTime` loop at index `i`:
read the pointer `items_[i]` (the array itself is alive, so that read is
defined) and dereference it for `items_[i]->getPrepTime()`; when the prep
time is below the threshold, increment the count and serve the pointer
(the count is incremented whether or not the serve succeeds, exactly as in
the source).  `none` = a dereference touched a freed object. -/
def releaseStepPtr (objs : List Dish) (t : Int)
    (acc : PtrState × Nat) (i : Nat) : Option (PtrState × Nat) :=
  match acc.1.slots[i]? with
  | none => some acc
  | some p =>
    match derefPtr objs acc.1.freed p with
    | none => none
    | some d =>
      if d.getPrepTime < t then
        match serveDishPtr objs acc.1 p with
        | none => none
        | some r => some (r.1, acc.2 + 1)
      else some acc

/-- The loop of `releaseDishesBelowPrepTime` over the snapshot index range,
aborting with `none` on the first undefined dereference. -/
def releaseLoopPtr (objs : List Dish) (t : Int) :
    List Nat → PtrState × Nat → Option (PtrState × Nat)
  | [], acc => some acc
  | i :: rest, acc =>
    match releaseStepPtr objs t acc i with
    | none => none
    | some acc2 => releaseLoopPtr objs t rest acc2

/-- `Kitchen::releaseDishesBelowPrepTime` (Kitchen.cpp lines 382-392) at
the pointer level: the kitchen's dishes are the distinct heap objects, the
backing array initially holds one pointer to each in order, and `i`
iterates over the snapshot range `[0, num)`.  `some (kitchen, count)` is a
defined run's final kitchen and return value; `none` means the run
dereferences a freed pointer, i.e. its behaviour is undefined. -/
def Kitchen.releaseDishesBelowPrepTimePtr (k : Kitchen) (t : Int) :
    Option (Kitchen × Nat) :=
  let objs := k.items
  let s0 : PtrState :=
    { slots := List.range objs.length, size := objs.length, freed := [],
      total_prep_time := k.total_prep_time,
      count_elaborate := k.count_elaborate }
  match releaseLoopPtr objs t (List.range objs.length) (s0, 0) with
  | none => none
  | some r =>
    some ({ capacity := k.capacity
            items := (r.1.slots.take r.1.size).filterMap
              (fun p => objs[p]?)
            total_prep_time := r.1.total_prep_time
            count_elaborate := r.1.count_elaborate }, r.2)

/-! ## Auxiliary definitions for the claims -/

/-- The variant tag of a dish (which concrete type it has). -/
inductive DishKind
  | appetizer | maincourse | dessert
  deriving DecidableEq, Repr

/-- The variant tag of a dish. -/
def Dish.kind : Dish → DishKind
  | .appetizer _ => DishKind.appetizer
  | .maincourse _ => DishKind.maincourse
  | .dessert _ => DishKind.dessert

/-- Modelled from the spec (§4.2, quoted in C4): walk the list in order;
a forbidden ingredient is replaced by the first replacement value not yet
used, and dropped once both replacements are used; other ingredients are
copied through unchanged.  Stated with the count of used replacements,
independently of the two-flag loop of the source. -/
def claimSubstGo (forb reps : List String) : List String → Nat → List String
  | [], _ => []
  | x :: xs, used =>
    if forb.contains x then
      match reps[used]? with
      | some r => r :: claimSubstGo forb reps xs (used + 1)
      | none => claimSubstGo forb reps xs used
    else x :: claimSubstGo forb reps xs used

/-- Modelled from the spec: bounded substitution with a replacement list,
starting with no replacement used. -/
def claimSubstitution (forb reps : List String) (l : List String) :
    List String :=
  claimSubstGo forb reps l 0

/-- Kitchen states reachable from an empty kitchen by `newOrder` and
`serveDish` calls (claim C3). -/
inductive Reachable : Kitchen → Prop
  | empty (c : Nat) : Reachable (Kitchen.emptyKitchen c)
  | new_order {k : Kitchen} (d : Dish) : Reachable k → Reachable (k.newOrder d).1
  | serve {k : Kitchen} (d : Dish) : Reachable k → Reachable (k.serveDish d).1

/-! ## Concrete fixtures used by counterexamples and witnesses -/

/-- A dish base with the given name, ingredients and prep time. -/
def mkBase (n : String) (ings : List String) (p : Int) : DishBase :=
  { name := n, ingredients := ings, prep_time := p, price := 10,
    cuisine_type := CuisineType.ITALIAN }

/-- The dessert of claim C1: ingredients Milk, Sugar, Eggs; sweetness 8;
contains nuts. -/
def dessertMilkSugarEggs : Dessert :=
  { base := mkBase "Cake" ["Milk", "Sugar", "Eggs"] 30
    flavor_profile := FlavorProfile.SWEET
    sweetness_level := 8
    contains_nuts := true }

/-- The request of claim C1: nut_free, low_sugar and vegan all true. -/
def requestNutFreeLowSugarVegan : DietaryRequest :=
  { vegetarian := false, vegan := true, gluten_free := false,
    nut_free := true, low_sodium := false, low_sugar := true }

/-- The appetizer of claim C4's example. -/
def appetizerChickenRice : Appetizer :=
  { base := mkBase "Skewers" ["Chicken", "Rice", "Shrimp", "Beef"] 15
    serving_style := ServingStyle.PLATED
    spiciness_level := 3
    vegetarian := false }

/-- A request with only the vegetarian flag set. -/
def requestVegetarianOnly : DietaryRequest :=
  { vegetarian := true, vegan := false, gluten_free := false,
    nut_free := false, low_sodium := false, low_sugar := false }

/-- An appetizer whose single ingredient is Bread (no non-vegetarian
ingredient). -/
def appetizerBreadOnly : Appetizer :=
  { base := mkBase "Toast" ["Bread"] 5
    serving_style := ServingStyle.PLATED
    spiciness_level := 0
    vegetarian := false }

/-- A request with vegetarian and gluten_free both set. -/
def requestVegetarianGlutenFree : DietaryRequest :=
  { vegetarian := true, vegan := false, gluten_free := true,
    nut_free := false, low_sodium := false, low_sugar := false }

/-- An appetizer dish with the given name and prep time and no
ingredients. -/
def plainDish (n : String) (p : Int) : Dish :=
  Dish.appetizer
    { base := mkBase n [] p
      serving_style := ServingStyle.PLATED
      spiciness_level := 0
      vegetarian := false }

/-- A kitchen containing exactly dishes of prep times 10, 20 and 21
(claim C7's example). -/
def kitchenTenTwentyTwentyOne : Kitchen :=
  { capacity := 20
    items := [plainDish "a" 10, plainDish "b" 20, plainDish "c" 21]
    total_prep_time := 51
    count_elaborate := 0 }

/-- A one-dish kitchen at full capacity (claim C6's witness). -/
def fullKitchenOne : Kitchen :=
  { capacity := 1
    items := [plainDish "a" 10]
    total_prep_time := 10
    count_elaborate := 0 }

/-- The failing input of claim C2: a dish F (prep 10) followed by two
distinct heap objects V and V' carrying the same dish value (prep 10).
Reachable by three `newOrder` calls — the bag is a multiset and duplicates
are allowed. -/
def kitchenDupVV : Kitchen :=
  { capacity := 20
    items := [plainDish "F" 10, plainDish "V" 10, plainDish "V" 10]
    total_prep_time := 30
    count_elaborate := 0 }

/-! ## Helper lemmas -/

theorem findFirstIndex_eq_none {α : Type} [DecidableEq α] {l : List α} {d : α}
    (h : ∀ x ∈ l, x ≠ d) : findFirstIndex l d = none := by
  induction l with
  | nil => rfl
  | cons x xs ih =>
    have hx : ¬x = d := h x (List.mem_cons_self x xs)
    simp [findFirstIndex, hx,
      ih (fun y hy => h y (List.mem_cons_of_mem x hy))]

theorem findFirstIndex_isSome_of_mem {α : Type} [DecidableEq α]
    {l : List α} {d : α} (h : d ∈ l) : ∃ j, findFirstIndex l d = some j := by
  induction l with
  | nil => cases h
  | cons x xs ih =>
    by_cases hx : x = d
    · exact ⟨0, by simp [findFirstIndex, hx]⟩
    · have hm : d ∈ xs := by
        rcases List.mem_cons.mp h with h1 | h2
        · exact absurd h1.symm hx
        · exact h2
      obtain ⟨j, hj⟩ := ih hm
      exact ⟨j + 1, by simp [findFirstIndex, hx, hj]⟩

theorem findFirstIndex_getElem? {α : Type} [DecidableEq α]
    {l : List α} {d : α} {j : Nat} (h : findFirstIndex l d = some j) :
    l[j]? = some d := by
  induction l generalizing j with
  | nil => simp [findFirstIndex] at h
  | cons x xs ih =>
    by_cases hx : x = d
    · simp [findFirstIndex, hx] at h
      subst h
      simp [hx]
    · simp [findFirstIndex, hx] at h
      obtain ⟨j', hj', rfl⟩ := h
      simpa using ih hj'

theorem findFirstIndex_lt_length {α : Type} [DecidableEq α]
    {l : List α} {d : α} {j : Nat} (h : findFirstIndex l d = some j) :
    j < l.length := by
  have := findFirstIndex_getElem? h
  exact (List.getElem?_eq_some.mp this).1

theorem findFirstIndex_min {α : Type} [DecidableEq α]
    {l : List α} {d : α} {j : Nat} (h : findFirstIndex l d = some j) :
    ∀ i < j, l[i]? ≠ some d := by
  induction l generalizing j with
  | nil => simp [findFirstIndex] at h
  | cons x xs ih =>
    by_cases hx : x = d
    · simp [findFirstIndex, hx] at h
      subst h
      intro i hi
      exact absurd hi (Nat.not_lt_zero i)
    · simp [findFirstIndex, hx] at h
      obtain ⟨j', hj', rfl⟩ := h
      intro i hi
      cases i with
      | zero => simpa using hx
      | succ i' =>
        have := ih hj' i' (Nat.lt_of_succ_lt_succ hi)
        simpa using this

/-! ## Claim theorems -/

/-- C1: the claim states that on a Dessert with ingredients
[Milk, Sugar, Eggs], sweetness 8 and nuts, a request with nut_free,
low_sugar and vegan all true yields ingredients
[Almond Milk, Sugar, Flax Egg], sweetness 5, no nuts.  The code instead
empties the ingredient list: the vegan pass iterates the vector the
nut-free pass filled *after clearing it*, so nothing is rebuilt.  This
theorem evaluates the embedded code at the claim's own input. -/
theorem C1_dessert_all_flags_evaluation :
    (dessertMilkSugarEggs.dietaryAccommodations
        requestNutFreeLowSugarVegan).base.ingredients = [] ∧
    (dessertMilkSugarEggs.dietaryAccommodations
        requestNutFreeLowSugarVegan).sweetness_level = 5 ∧
    (dessertMilkSugarEggs.dietaryAccommodations
        requestNutFreeLowSugarVegan).contains_nuts = false := by
  decide

/-- C10: for every Dessert and request with both nut_free and vegan true,
`dietaryAccommodations` leaves the ingredient list empty: the vegan pass
iterates over the just-cleared working vector, so nothing survives or is
substituted. -/
theorem C10_nut_free_vegan_empties_ingredients
    (d : Dessert) (r : DietaryRequest)
    (h1 : r.nut_free = true) (h2 : r.vegan = true) :
    (d.dietaryAccommodations r).base.ingredients = [] := by
  simp [Dessert.dietaryAccommodations, h1, h2, boundedSubst, substGo]

/-- Witness for C10 at the concrete dessert of C1. -/
theorem C10_witness :
    (dessertMilkSugarEggs.dietaryAccommodations
        requestNutFreeLowSugarVegan).base.ingredients = [] :=
  C10_nut_free_vegan_empties_ingredients dessertMilkSugarEggs
    requestNutFreeLowSugarVegan rfl rfl

/-- C5: `serveDish` on a dish equal (by the all-attributes contract) to no
contained dish returns false and leaves the kitchen unchanged. -/
theorem C5_serveDish_absent_no_mutation (k : Kitchen) (d : Dish)
    (h : ∀ x ∈ k.items, x ≠ d) : k.serveDish d = (k, false) := by
  simp [Kitchen.serveDish, findFirstIndex_eq_none h]

/-- Witness for C5: serving an absent dish on a concrete kitchen. -/
theorem C5_witness :
    kitchenTenTwentyTwentyOne.serveDish (plainDish "z" 5) =
      (kitchenTenTwentyTwentyOne, false) :=
  C5_serveDish_absent_no_mutation kitchenTenTwentyTwentyOne
    (plainDish "z" 5) (by decide)

/-- C6: `newOrder` on a kitchen whose current size equals its capacity
returns false and leaves the state unchanged. -/
theorem C6_newOrder_full_no_mutation (k : Kitchen) (d : Dish)
    (h : k.items.length = k.capacity) : k.newOrder d = (k, false) := by
  simp [Kitchen.newOrder, h]

/-- Witness for C6 on a full one-slot kitchen. -/
theorem C6_witness :
    fullKitchenOne.newOrder (plainDish "b" 1) = (fullKitchenOne, false) :=
  C6_newOrder_full_no_mutation fullKitchenOne (plainDish "b" 1) (by decide)

/-- C8: the ingestion enum helpers are total and map every unrecognized
token to the fixed defaults: OTHER, PLATED, GRILLED, SWEET. -/
theorem C8_enum_defaults (s : String) :
    (s ∉ ["ITALIAN", "MEXICAN", "CHINESE", "INDIAN", "AMERICAN", "FRENCH"] →
      Kitchen.stringToCuisineType s = CuisineType.OTHER) ∧
    (s ∉ ["PLATED", "BUFFET", "FAMILY_STYLE"] →
      stringToServingStyle s = ServingStyle.PLATED) ∧
    (s ∉ ["GRILLED", "BAKED", "BOILED", "FRIED", "STEAMED", "RAW"] →
      stringToCookingMethod s = CookingMethod.GRILLED) ∧
    (s ∉ ["SWEET", "BITTER", "SOUR", "SALTY", "UMAMI"] →
      stringToFlavorProfile s = FlavorProfile.SWEET) := by
  refine ⟨?_, ?_, ?_, ?_⟩ <;> intro h <;> simp [List.mem_cons] at h <;>
    simp [Kitchen.stringToCuisineType, stringToServingStyle,
      stringToCookingMethod, stringToFlavorProfile, h]

/-- Witness for C8 at the unrecognized token TERIYAKI. -/
theorem C8_witness :
    Kitchen.stringToCuisineType "TERIYAKI" = CuisineType.OTHER ∧
    stringToServingStyle "TERIYAKI" = ServingStyle.PLATED ∧
    stringToCookingMethod "TERIYAKI" = CookingMethod.GRILLED ∧
    stringToFlavorProfile "TERIYAKI" = FlavorProfile.SWEET :=
  ⟨(C8_enum_defaults "TERIYAKI").1 (by decide),
   (C8_enum_defaults "TERIYAKI").2.1 (by decide),
   (C8_enum_defaults "TERIYAKI").2.2.1 (by decide),
   (C8_enum_defaults "TERIYAKI").2.2.2 (by decide)⟩

theorem dietary_preserves_frame (d : Dish) (r : DietaryRequest) :
    (d.dietaryAccommodations r).getName = d.getName ∧
    (d.dietaryAccommodations r).getPrepTime = d.getPrepTime ∧
    (d.dietaryAccommodations r).getPrice = d.getPrice ∧
    (d.dietaryAccommodations r).getCuisineType = d.getCuisineType ∧
    (d.dietaryAccommodations r).kind = d.kind := by
  cases d with
  | appetizer a =>
    simp only [Dish.dietaryAccommodations, Appetizer.dietaryAccommodations,
      Dish.getName, Dish.getPrepTime, Dish.getPrice, Dish.getCuisineType,
      Dish.kind]
    split_ifs <;> simp
  | maincourse m =>
    simp only [Dish.dietaryAccommodations, MainCourse.dietaryAccommodations,
      Dish.getName, Dish.getPrepTime, Dish.getPrice, Dish.getCuisineType,
      Dish.kind]
    split_ifs <;> simp
  | dessert d =>
    simp only [Dish.dietaryAccommodations, Dessert.dietaryAccommodations,
      Dish.getName, Dish.getPrepTime, Dish.getPrice, Dish.getCuisineType,
      Dish.kind]
    split_ifs <;> simp

/-- C9: `dietaryAdjustment` leaves the kitchen's capacity, size,
total_prep_time and count_elaborate unchanged (in particular the elaborate
count is not recomputed), and leaves every contained dish's name, prep
time, price, cuisine type and variant unchanged — only ingredient lists
and variant-specific fields may change. -/
theorem C9_dietaryAdjustment_frame (k : Kitchen) (r : DietaryRequest) :
    (k.dietaryAdjustment r).capacity = k.capacity ∧
    (k.dietaryAdjustment r).total_prep_time = k.total_prep_time ∧
    (k.dietaryAdjustment r).count_elaborate = k.count_elaborate ∧
    (k.dietaryAdjustment r).items.length = k.items.length ∧
    ∀ i : Nat,
      (k.dietaryAdjustment r).items[i]?.map Dish.getPrepTime =
        k.items[i]?.map Dish.getPrepTime ∧
      (k.dietaryAdjustment r).items[i]?.map Dish.getCuisineType =
        k.items[i]?.map Dish.getCuisineType ∧
      (k.dietaryAdjustment r).items[i]?.map Dish.getName =
        k.items[i]?.map Dish.getName ∧
      (k.dietaryAdjustment r).items[i]?.map Dish.getPrice =
        k.items[i]?.map Dish.getPrice ∧
      (k.dietaryAdjustment r).items[i]?.map Dish.kind =
        k.items[i]?.map Dish.kind := by
  refine ⟨rfl, rfl, rfl, by simp [Kitchen.dietaryAdjustment], ?_⟩
  intro i
  cases h : k.items[i]? with
  | none => simp [Kitchen.dietaryAdjustment, h]
  | some d =>
    have hp := dietary_preserves_frame d r
    simp [Kitchen.dietaryAdjustment, h, hp.1, hp.2.1, hp.2.2.1,
      hp.2.2.2.1, hp.2.2.2.2]

theorem substGo_eq_claimSubstGo (forb : List String) (r1 r2 : String)
    (l : List String) :
    substGo forb r1 r2 l false false = claimSubstGo forb [r1, r2] l 0 ∧
    substGo forb r1 r2 l true false = claimSubstGo forb [r1, r2] l 1 ∧
    substGo forb r1 r2 l true true = claimSubstGo forb [r1, r2] l 2 := by
  induction l with
  | nil => exact ⟨rfl, rfl, rfl⟩
  | cons x xs ih =>
    by_cases hx : forb.contains x <;>
      simp [substGo, claimSubstGo, hx, ih.1, ih.2.1, ih.2.2]

/-- C4's counterexample: the claim as stated covers every request with
vegetarian true, hence also one that additionally sets gluten_free; on the
appetizer whose only ingredient is Bread the claim predicts the list
[Bread] (no non-vegetarian ingredient, all others copied through
unchanged), but the gluten-free pass of the same call drops Bread. -/
theorem C4_counterexample :
    ¬((appetizerBreadOnly.dietaryAccommodations
        requestVegetarianGlutenFree).base.ingredients = ["Bread"]) := by
  decide

/-- C4 (amended): for every Appetizer and request with vegetarian true and
gluten_free false, `dietaryAccommodations` sets the vegetarian flag and
rebuilds the ingredient list in original order, replacing the first
non-vegetarian ingredient with Beans, the second with Mushrooms, dropping
further ones, and copying all other ingredients unchanged. -/
theorem C4_amended_vegetarian_rebuild (a : Appetizer) (r : DietaryRequest)
    (h1 : r.vegetarian = true) (h2 : r.gluten_free = false) :
    (a.dietaryAccommodations r).vegetarian = true ∧
    (a.dietaryAccommodations r).base.ingredients =
      claimSubstitution non_vegetarian ["Beans", "Mushrooms"]
        a.base.ingredients := by
  have heq :=
    (substGo_eq_claimSubstGo non_vegetarian "Beans" "Mushrooms"
      a.base.ingredients).1
  constructor
  · simp [Appetizer.dietaryAccommodations, h1, h2]
    split_ifs <;> simp
  · simp [Appetizer.dietaryAccommodations, h1, h2]
    split_ifs <;> simp [boundedSubst, claimSubstitution, heq]

/-- Witness for C4 on the claim's own example: ingredients
[Chicken, Rice, Shrimp, Beef] become [Beans, Rice, Mushrooms]. -/
theorem C4_witness :
    (appetizerChickenRice.dietaryAccommodations
        requestVegetarianOnly).vegetarian = true ∧
    (appetizerChickenRice.dietaryAccommodations
        requestVegetarianOnly).base.ingredients =
      ["Beans", "Rice", "Mushrooms"] := by
  have h :=
    C4_amended_vegetarian_rebuild appetizerChickenRice requestVegetarianOnly
      rfl rfl
  exact ⟨h.1, h.2.trans (by decide)⟩

theorem roundHalfAway_bounds (q : Rat) :
    q - 1 / 2 ≤ (roundHalfAway q : Rat) ∧
      (roundHalfAway q : Rat) ≤ q + 1 / 2 := by
  unfold roundHalfAway
  split_ifs with h
  · constructor
    · have := Int.lt_floor_add_one (q + 1 / 2)
      push_cast at this ⊢
      linarith
    · have := Int.floor_le (q + 1 / 2)
      push_cast at this ⊢
      linarith
  · constructor
    · have := Int.le_ceil (q - 1 / 2)
      push_cast at this ⊢
      linarith
    · have := Int.ceil_lt_add_one (q - 1 / 2)
      push_cast at this ⊢
      linarith

/-- C7: `calculateAvgPrepTime` returns 0 on an empty kitchen and otherwise
the prep-time sum divided by the current size rounded to the nearest
integer (the two inequalities pin the result to within half of the exact
average); in particular prep times 10, 20, 21 yield 17. -/
theorem C7_avg_prep_time (k : Kitchen) :
    (k.items = [] → k.calculateAvgPrepTime = 0) ∧
    (k.items ≠ [] →
      2 * ((k.items.map Dish.getPrepTime).sum -
          (k.items.length : Int) * k.calculateAvgPrepTime) ≤
        (k.items.length : Int) ∧
      2 * ((k.items.length : Int) * k.calculateAvgPrepTime -
          (k.items.map Dish.getPrepTime).sum) ≤ (k.items.length : Int)) ∧
    kitchenTenTwentyTwentyOne.calculateAvgPrepTime = 17 := by
  refine ⟨?_, ?_, by
    rw [Kitchen.calculateAvgPrepTime]
    norm_num [kitchenTenTwentyTwentyOne, plainDish, mkBase,
      Dish.getPrepTime, roundHalfAway]⟩
  · intro h
    simp [Kitchen.calculateAvgPrepTime, h]
  · intro h
    have hn : 0 < k.items.length := List.length_pos.mpr h
    have hlen : ¬(k.items.length = 0) := Nat.pos_iff_ne_zero.mp hn
    set s : Int := (k.items.map Dish.getPrepTime).sum with hs
    set n : Nat := k.items.length with hnn
    have hr : k.calculateAvgPrepTime =
        roundHalfAway ((s : Rat) / (n : Rat)) := by
      simp [Kitchen.calculateAvgPrepTime, hlen, hs, hnn]
    have hq : (0 : Rat) < (n : Rat) := by exact_mod_cast hn
    have hb := roundHalfAway_bounds ((s : Rat) / (n : Rat))
    have hcancel : (s : Rat) / (n : Rat) * (n : Rat) = (s : Rat) :=
      div_mul_cancel₀ _ (ne_of_gt hq)
    have h2 : (roundHalfAway ((s : Rat) / (n : Rat)) : Rat) * (n : Rat) ≤
        ((s : Rat) / (n : Rat) + 1 / 2) * (n : Rat) :=
      mul_le_mul_of_nonneg_right hb.2 (le_of_lt hq)
    have h3 : ((s : Rat) / (n : Rat) - 1 / 2) * (n : Rat) ≤
        (roundHalfAway ((s : Rat) / (n : Rat)) : Rat) * (n : Rat) :=
      mul_le_mul_of_nonneg_right hb.1 (le_of_lt hq)
    rw [hr]
    constructor
    · have g : (2 : Rat) * ((s : Rat) -
          (n : Rat) * (roundHalfAway ((s : Rat) / (n : Rat)) : Rat)) ≤
          (n : Rat) := by
        rw [sub_mul] at h3
        rw [hcancel] at h3
        linarith
      exact_mod_cast g
    · have g : (2 : Rat) * ((n : Rat) *
          (roundHalfAway ((s : Rat) / (n : Rat)) : Rat) - (s : Rat)) ≤
          (n : Rat) := by
        rw [add_mul] at h2
        rw [hcancel] at h2
        linarith
      exact_mod_cast g

/-- Witness for C7 on the kitchen with prep times 10, 20, 21. -/
theorem C7_witness :
    2 * ((kitchenTenTwentyTwentyOne.items.map Dish.getPrepTime).sum -
        (kitchenTenTwentyTwentyOne.items.length : Int) *
          kitchenTenTwentyTwentyOne.calculateAvgPrepTime) ≤
      (kitchenTenTwentyTwentyOne.items.length : Int) ∧
    2 * ((kitchenTenTwentyTwentyOne.items.length : Int) *
          kitchenTenTwentyTwentyOne.calculateAvgPrepTime -
        (kitchenTenTwentyTwentyOne.items.map Dish.getPrepTime).sum) ≤
      (kitchenTenTwentyTwentyOne.items.length : Int) :=
  (C7_avg_prep_time kitchenTenTwentyTwentyOne).2.1 (by decide)

theorem perm_getElem_cons_eraseIdx {α : Type} (l : List α) (i : Nat)
    (h : i < l.length) : l.Perm (l[i] :: l.eraseIdx i) := by
  induction l generalizing i with
  | nil => simp at h
  | cons a as ih =>
    cases i with
    | zero => simp
    | succ j =>
      have h' : j < as.length := Nat.lt_of_succ_lt_succ (by simpa using h)
      have step := List.Perm.cons a (ih j h')
      have swap := List.Perm.swap (as[j]) a (as.eraseIdx j)
      simpa using step.trans swap

theorem swapRemoveAt_perm {α : Type} (l : List α) (i : Nat)
    (h : i < l.length) : (swapRemoveAt l i).Perm (l.eraseIdx i) := by
  induction l generalizing i with
  | nil => simp at h
  | cons a as ih =>
    cases i with
    | zero =>
      cases as with
      | nil => simp [swapRemoveAt]
      | cons b bs =>
        have hne : (b :: bs : List α) ≠ [] := by simp
        have hx : (a :: b :: bs).getLast? = some ((b :: bs).getLast hne) := by
          rw [List.getLast?_cons_cons]
          exact List.getLast?_eq_getLast (b :: bs) hne
        have hdrop : (((b :: bs).getLast hne) :: b :: bs).dropLast =
            ((b :: bs).getLast hne) :: (b :: bs).dropLast := by
          exact List.dropLast_cons_of_ne_nil hne
        have hsplit : (b :: bs).dropLast ++ [(b :: bs).getLast hne] =
            b :: bs := List.dropLast_append_getLast hne
        have hperm : (((b :: bs).getLast hne) :: (b :: bs).dropLast).Perm
            (b :: bs) := by
          have := List.perm_append_singleton ((b :: bs).getLast hne)
            ((b :: bs).dropLast)
          rw [hsplit] at this
          exact this.symm
        simpa [swapRemoveAt, hx, hdrop] using hperm
    | succ j =>
      have h' : j < as.length := Nat.lt_of_succ_lt_succ (by simpa using h)
      have hne : as ≠ [] := by
        intro he
        rw [he] at h'
        simp at h'
      have hx : as.getLast? = some (as.getLast hne) :=
        List.getLast?_eq_getLast as hne
      have hxc : (a :: as).getLast? = some (as.getLast hne) := by
        cases as with
        | nil => exact absurd rfl hne
        | cons b bs => rw [List.getLast?_cons_cons]; exact hx
      have hsetne : as.set j (as.getLast hne) ≠ [] := by
        intro he
        have := congrArg List.length he
        simp at this
        rw [this] at h'
        simp at h'
      have ihx := ih j h'
      rw [swapRemoveAt, hx] at ihx
      have : swapRemoveAt (a :: as) (j + 1) =
          a :: (as.set j (as.getLast hne)).dropLast := by
        rw [swapRemoveAt, hxc]
        simp only [List.set_cons_succ]
        exact List.dropLast_cons_of_ne_nil hsetne
      rw [this, List.eraseIdx_cons_succ]
      exact List.Perm.cons a ihx

/-- C3: after any sequence of `newOrder`/`serveDish` calls from the empty
kitchen, `total_prep_time` equals the live sum of prep times and
`count_elaborate` equals the number of contained dishes with at least 5
ingredients and prep time at least 60. -/
theorem C3_bookkeeping_invariant (k : Kitchen) (h : Reachable k) :
    k.total_prep_time = (k.items.map Dish.getPrepTime).sum ∧
    k.count_elaborate = (k.items.countP isElaborateDish : Int) := by
  induction h with
  | empty c => exact ⟨rfl, rfl⟩
  | @new_order k d hk ih =>
    rw [Kitchen.newOrder]
    by_cases hfull : k.items.length < k.capacity
    · rw [if_pos hfull]
      constructor
      · simp [ih.1]
      · cases hel : isElaborateDish d <;>
          simp [List.countP_append, List.countP_cons, hel, ih.2]
    · rw [if_neg hfull]
      exact ih
  | @serve k d hk ih =>
    rw [Kitchen.serveDish]
    by_cases hlen : k.items.length = 0
    · rw [if_pos hlen]
      exact ih
    · rw [if_neg hlen]
      cases hf : findFirstIndex k.items d with
      | none =>
        simp only []
        exact ih
      | some i =>
        simp only []
        have hi : i < k.items.length := findFirstIndex_lt_length hf
        have hget : k.items[i] = d := by
          have := findFirstIndex_getElem? hf
          rw [List.getElem?_eq_getElem hi] at this
          exact Option.some.inj this
        have hpc : k.items.Perm (d :: k.items.eraseIdx i) := by
          have := perm_getElem_cons_eraseIdx k.items i hi
          rwa [hget] at this
        have hps : (swapRemoveAt k.items i).Perm (k.items.eraseIdx i) :=
          swapRemoveAt_perm k.items i hi
        constructor
        · have hsum : (k.items.map Dish.getPrepTime).sum =
              d.getPrepTime + ((k.items.eraseIdx i).map Dish.getPrepTime).sum := by
            have := (hpc.map Dish.getPrepTime).sum_eq
            simpa using this
          have hsum2 : ((swapRemoveAt k.items i).map Dish.getPrepTime).sum =
              ((k.items.eraseIdx i).map Dish.getPrepTime).sum :=
            (hps.map Dish.getPrepTime).sum_eq
          rw [hsum2, ih.1, hsum]
          ring
        · have hcnt : k.items.countP isElaborateDish =
              (if isElaborateDish d then 1 else 0) +
                (k.items.eraseIdx i).countP isElaborateDish := by
            have := hpc.countP_eq isElaborateDish
            rw [this, List.countP_cons]
            ring
          have hcnt2 : (swapRemoveAt k.items i).countP isElaborateDish =
              (k.items.eraseIdx i).countP isElaborateDish :=
            hps.countP_eq isElaborateDish
          rw [hcnt2, ih.2, hcnt]
          push_cast
          split_ifs <;> ring

/-- Witness for C3 at the kitchen reached by one `newOrder` from empty. -/
theorem C3_witness :
    ((Kitchen.emptyKitchen 3).newOrder (plainDish "a" 10)).1.total_prep_time =
      ((((Kitchen.emptyKitchen 3).newOrder
          (plainDish "a" 10)).1.items.map Dish.getPrepTime).sum) ∧
    ((Kitchen.emptyKitchen 3).newOrder (plainDish "a" 10)).1.count_elaborate =
      ((((Kitchen.emptyKitchen 3).newOrder
          (plainDish "a" 10)).1.items.countP isElaborateDish : Nat) : Int) :=
  C3_bookkeeping_invariant _
    (Reachable.new_order (plainDish "a" 10) (Reachable.empty 3))

/-- C2: the claim promises that for every Kitchen state and threshold,
`releaseDishesBelowPrepTime(t)` removes every contained dish with prep
time below `t` and returns the number served.  On a kitchen holding
F (prep 10) and two value-equal dishes V, V' at threshold 30, the run has
no defined result: iteration 0 serves F and swaps the pointer to V' into
slot 0; iteration 1, serving the dish of slot 1, deletes V' (the first
*value-equal* match); iteration 2 then dereferences the stale pointer to
the freed V' still stored in slot 2 (`items_[i]->getPrepTime()`), which is
undefined behaviour — the pointer-level model reports it as `none`. -/
theorem C2_release_use_after_free :
    kitchenDupVV.releaseDishesBelowPrepTimePtr 30 = none := by
  decide

end KitchenModel
